import Mathlib

/-!
Verification of the ARM GICv5 emulation core (IRS + CPU interface).

Shallow embedding of the C sources:
  * the IRS (`arm_gicv5.c`, stream commands, IST walker, LPI cache,
    config-frame register file, SPI sampling), and
  * the CPU interface (`gicv5_cpuif.c`: HPPI selection, running priority,
    priority drop, PPI-HPPI recomputation).

Machine integers are modelled as `Nat` with explicit truncation (`% 2^w`)
exactly where the C code truncates; guest memory is a partial map
`Nat → Option Nat` (where `none` models a failed bus transaction); the
GLib hash table used for the LPI cache is an association list.
-/

/-! ## Basic constants and field helpers (registerfields.h style) -/

/-- Architectural idle priority sentinel (`PRIO_IDLE` in the source). -/
def PRIO_IDLE : Nat := 0xff

/-- Interrupt domain encodings (enum `GICv5Domain`). -/
def GICV5_ID_S : Nat := 0
def GICV5_ID_NS : Nat := 1
def GICV5_ID_EL3 : Nat := 2
def GICV5_ID_REALM : Nat := 3

/-- Interrupt type encodings (enum `GICv5IntType`, 3-bit INTID.TYPE field). -/
def GICV5_PPI : Nat := 1
def GICV5_LPI : Nat := 2
def GICV5_SPI : Nat := 3

/-- `FIELD_EX32`/`FIELD_EX64`/`extract32`/`extract64`: extract `width` bits
starting at `shift`. -/
def fieldEx (x shift width : Nat) : Nat := (x >>> shift) % 2 ^ width

/-- `FIELD_DP32`/`deposit32`: deposit the low `width` bits of `v` into `x`
at position `shift`, keeping the register 32 bits wide. -/
def fieldDp32 (x shift width v : Nat) : Nat :=
  (x &&& (2 ^ 32 - 1 - ((2 ^ width - 1) <<< shift))) ||| ((v % 2 ^ width) <<< shift)

/-- `FIELD_DP64`/`deposit64`: 64-bit variant of `fieldDp32`. -/
def fieldDp64 (x shift width v : Nat) : Nat :=
  (x &&& (2 ^ 64 - 1 - ((2 ^ width - 1) <<< shift))) ||| ((v % 2 ^ width) <<< shift)

/-- Handling mode (enum `GICv5HandlingMode`: `GICV5_EDGE = 0`, `GICV5_LEVEL = 1`). -/
inductive GICv5HandlingMode where
  | edge
  | level
deriving DecidableEq

/-- Trigger mode (enum `GICv5TriggerMode`: edge = 0, level = 1). -/
inductive GICv5TriggerMode where
  | edge
  | level
deriving DecidableEq

/-- Routing mode (enum `GICv5RoutingMode`). -/
inductive GICv5RoutingMode where
  | targeted
  | oneOfN
deriving DecidableEq

/-- Per-SPI state record (struct `GICv5SPIState`). -/
structure GICv5SPIState where
  iaffid : Nat
  priority : Nat
  level : Bool
  pending : Bool
  active : Bool
  enabled : Bool
  hm : GICv5HandlingMode
  irm : GICv5RoutingMode
  tm : GICv5TriggerMode
  domain : Nat
deriving DecidableEq

/-- Candidate highest-priority pending interrupt (struct `GICv5PendingIrq`).
The `intid` field is a `uint32_t` in the source. -/
structure GICv5PendingIrq where
  intid : Nat
  prio : Nat
deriving DecidableEq

/-- Build a 32-bit INTID from an ID and a type, as the source does with
`FIELD_DP32(intid, INTID, ID, id)` and `FIELD_DP32(intid, INTID, TYPE, ty)`
(fields `INTID.ID` at [23:0] and `INTID.TYPE` at [31:29]). -/
def intid_mk (id ty : Nat) : Nat := fieldDp32 (fieldDp32 0 0 24 id) 29 3 ty

/-! ## Guest memory -/

/-- Guest physical memory as a partial cell map: `none` models an address
at which the bus transaction fails (`MEMTX_OK` not returned). -/
def GuestMem : Type := Nat → Option Nat

/-- A store to guest memory: succeeds (replacing the value) only where the
address is mapped, otherwise the failed write leaves memory unchanged. -/
def memWrite (mem : GuestMem) (addr v : Nat) : GuestMem :=
  fun a => if a = addr then (mem addr).map (fun _ => v) else mem a

/-! ## IST configuration and walker -/

/-- Frozen per-(IRS, domain) IST configuration (struct `GICv5ISTConfig`).
The `structure` field of the C struct is called `twoLevel` here because
`structure` is a Lean keyword; the GLib hash table `lpi_cache` is an
association list from LPI ID to the cached 32-bit L2 ISTE word. -/
structure GICv5ISTConfig where
  base : Nat
  id_bits : Nat
  l2_idx_bits : Nat
  istsz : Nat
  twoLevel : Bool
  valid : Bool
  lpi_cache : List (Nat × Nat)

/-- `R_L1_ISTE_L2_ADDR_MASK`: bits [55:12] (FIELD(L1_ISTE, L2_ADDR, 12, 44)). -/
def R_L1_ISTE_L2_ADDR_MASK : Nat := (2 ^ 44 - 1) <<< 12

/-- `l1_iste_addr`: address of the L1 IST entry for this interrupt ID. -/
def l1_iste_addr (cfg : GICv5ISTConfig) (id : Nat) : Nat :=
  cfg.base + (id >>> cfg.l2_idx_bits) * 8

/-- `get_l2_iste_addr`: locate the L2 IST entry address for interrupt `id`.
Returns the address on success together with the list of guest addresses
read during the walk (the L1 fetch of a 2-level walk), so that theorems can
speak about which guest-memory accesses an operation performs. -/
def get_l2_iste_addr (cfg : GICv5ISTConfig) (mem : GuestMem) (id : Nat) :
    Option Nat × List Nat :=
  if !cfg.valid then (none, [])
  else if id ≥ 1 <<< cfg.id_bits then (none, [])
  else if cfg.twoLevel then
    let l1_addr := l1_iste_addr cfg id
    match mem l1_addr with
    | none => (none, [l1_addr])
    | some l1_iste =>
      if fieldEx l1_iste 0 1 = 0 then (none, [l1_addr])
      else
        let l2_base := l1_iste &&& R_L1_ISTE_L2_ADDR_MASK
        let idx := fieldEx id 0 cfg.l2_idx_bits
        (some (l2_base + idx * cfg.istsz), [l1_addr])
  else (some (cfg.base + id * cfg.istsz), [])

/-- Handle returned by `get_l2_iste` for a later `put_l2_iste`
(struct `L2_ISTE_Handle`; the word itself is returned alongside). -/
structure L2_ISTE_Handle where
  id : Nat
  hashed : Bool
  l2_iste_addr : Nat
deriving DecidableEq

/-- `get_l2_iste`: find the L2 ISTE word for interrupt `id` — from the LPI
cache when present, otherwise by walking the IST in guest memory. Returns
the word and its handle (or `none` on an invalid config or a failed walk),
together with the guest addresses read. -/
def get_l2_iste (cfg : GICv5ISTConfig) (mem : GuestMem) (id : Nat) :
    Option (Nat × L2_ISTE_Handle) × List Nat :=
  if !cfg.valid then (none, [])
  else
    match cfg.lpi_cache.lookup id with
    | some w => (some (w, ⟨id, true, 0⟩), [])
    | none =>
      match get_l2_iste_addr cfg mem id with
      | (none, rs) => (none, rs)
      | (some addr, rs) =>
        match mem addr with
        | none => (none, rs ++ [addr])
        | some w => (some (w, ⟨id, false, addr⟩), rs ++ [addr])

/-- Remove the cache entry with the given key (`g_hash_table_remove`). -/
def cacheRemove (c : List (Nat × Nat)) (id : Nat) : List (Nat × Nat) :=
  c.filter (fun p => p.1 ≠ id)

/-- Update in place the cached word for `id` (the caller of `get_l2_iste`
mutates the word through the returned pointer when it was cached). -/
def cacheSet (c : List (Nat × Nat)) (id w : Nat) : List (Nat × Nat) :=
  c.map (fun p => if p.1 = id then (p.1, w) else p)

/-- `put_l2_iste`: commit the (modified) L2 ISTE word `w` found with
`get_l2_iste`.  Returns the new cache state, the new guest memory, and
the list of (address, value) guest writes issued. -/
def put_l2_iste (cfg : GICv5ISTConfig) (mem : GuestMem) (h : L2_ISTE_Handle)
    (w : Nat) : GICv5ISTConfig × GuestMem × List (Nat × Nat) :=
  if h.hashed then
    if fieldEx w 0 1 = 0 then
      let cfg' := { cfg with lpi_cache := cacheRemove cfg.lpi_cache h.id }
      match (get_l2_iste_addr cfg mem h.id).1 with
      | some addr => (cfg', memWrite mem addr w, [(addr, w)])
      | none => (cfg', mem, [])
    else
      ({ cfg with lpi_cache := cacheSet cfg.lpi_cache h.id w }, mem, [])
  else
    if fieldEx w 0 1 ≠ 0 then
      ({ cfg with lpi_cache := (h.id, w) :: cfg.lpi_cache }, mem, [])
    else
      (cfg, memWrite mem h.l2_iste_addr w, [(h.l2_iste_addr, w)])

/-- The common get/modify/put sequence used by the LPI branch of every
`gicv5_set_*` stream command: read the L2 ISTE, apply `f` to the word,
write it back through `put_l2_iste`; a failed read aborts the operation. -/
def lpi_field_update (cfg : GICv5ISTConfig) (mem : GuestMem) (id : Nat)
    (f : Nat → Nat) : GICv5ISTConfig × GuestMem × List (Nat × Nat) :=
  match (get_l2_iste cfg mem id).1 with
  | none => (cfg, mem, [])
  | some (w, h) => put_l2_iste cfg mem h (f w)

/-- One step of `irs_clean_lpi_cache`'s `g_hash_table_foreach_remove`:
write each cached entry back to guest memory (dropping it regardless of
address-resolution or write-back errors), threading the memory state. -/
def cleanEntries (cfg : GICv5ISTConfig) (mem : GuestMem) :
    List (Nat × Nat) → GuestMem × List (Nat × Nat)
  | [] => (mem, [])
  | (id, w) :: rest =>
    match (get_l2_iste_addr cfg mem id).1 with
    | some addr =>
      let r := cleanEntries cfg (memWrite mem addr w) rest
      (r.1, (addr, w) :: r.2)
    | none => cleanEntries cfg mem rest

/-- `irs_clean_lpi_cache`: write everything in the LPI cache out to guest
memory and empty the cache (triggered by an `IRS_IST_BASER.VALID` 1→0
transition). -/
def irs_clean_lpi_cache (cfg : GICv5ISTConfig) (mem : GuestMem) :
    GICv5ISTConfig × GuestMem × List (Nat × Nat) :=
  let r := cleanEntries cfg mem cfg.lpi_cache
  ({ cfg with lpi_cache := [] }, r.1, r.2)

/-- `gicv5_reset_hold` acting on one domain's IST configuration: invalidate
the captured config and return to an empty cache without writing anything
back to guest memory. -/
def gicv5_reset_hold_cfg (cfg : GICv5ISTConfig) : GICv5ISTConfig :=
  { cfg with valid := false, lpi_cache := [] }

/-! ## IRS state and SPI lookups -/

/-- Combined IRS state used by the stream commands: the SPI state table of
`GICv5Common` (element 0 is SPI `spi_base`), the per-domain frozen IST
configurations (`phys_lpi_config`), and guest memory. -/
structure IRSState where
  spi : List GICv5SPIState
  spi_base : Nat
  spi_irs_range : Nat
  phys_lpi_config : Nat → GICv5ISTConfig
  mem : GuestMem

/-- `gicv5_raw_spi_state`: index and record of the SPI with this INTID, or
`none` if the ID is outside the IRS's managed range. -/
def gicv5_raw_spi_state (st : IRSState) (id : Nat) : Option (Nat × GICv5SPIState) :=
  if id < st.spi_base ∨ id ≥ st.spi_base + st.spi_irs_range then none
  else
    match st.spi.get? (id - st.spi_base) with
    | some s => some (id - st.spi_base, s)
    | none => none

/-- `gicv5_spi_state`: like `gicv5_raw_spi_state` but additionally requires
the SPI to be assigned to `domain` (otherwise the SPI is unreachable). -/
def gicv5_spi_state (st : IRSState) (id domain : Nat) : Option (Nat × GICv5SPIState) :=
  match gicv5_raw_spi_state st id with
  | none => none
  | some (i, s) => if s.domain ≠ domain then none else some (i, s)

/-- Replace the SPI record at array index `i`. -/
def setSPIAt (st : IRSState) (i : Nat) (s : GICv5SPIState) : IRSState :=
  { st with spi := st.spi.set i s }

/-! ## Stream commands (SPI and LPI branches) -/

/-- `gicv5_set_pending`: the stream command.  `virtual` interrupts and bad
types are logged no-ops.  NOTE (faithful to the source): the SPI branch
stores the constant `true` into `spi->pending`, ignoring the `pending`
argument; the LPI branch deposits the argument into `L2_ISTE.PENDING`. -/
def gicv5_set_pending (st : IRSState) (id : Nat) (pending : Bool)
    (domain ty : Nat) (virt : Bool) : IRSState :=
  if virt then st
  else if ty = GICV5_SPI then
    match gicv5_spi_state st id domain with
    | none => st
    | some (i, s) => setSPIAt st i { s with pending := true }
  else if ty ≠ GICV5_LPI then st
  else
    let cfg := st.phys_lpi_config domain
    let r := lpi_field_update cfg st.mem id
      (fun w => fieldDp32 w 0 1 (if pending then 1 else 0))
    { st with phys_lpi_config := Function.update st.phys_lpi_config domain r.1,
              mem := r.2.1 }

/-- `gicv5_set_enabled`: the stream command.  NOTE (faithful to the source):
the SPI branch stores the constant `true` into `spi->enabled`, ignoring the
`enabled` argument; the LPI branch deposits the argument into
`L2_ISTE.ENABLE` (bit 3). -/
def gicv5_set_enabled (st : IRSState) (id : Nat) (enabled : Bool)
    (domain ty : Nat) (virt : Bool) : IRSState :=
  if virt then st
  else if ty = GICV5_SPI then
    match gicv5_spi_state st id domain with
    | none => st
    | some (i, s) => setSPIAt st i { s with enabled := true }
  else if ty ≠ GICV5_LPI then st
  else
    let cfg := st.phys_lpi_config domain
    let r := lpi_field_update cfg st.mem id
      (fun w => fieldDp32 w 3 1 (if enabled then 1 else 0))
    { st with phys_lpi_config := Function.update st.phys_lpi_config domain r.1,
              mem := r.2.1 }

/-- `gicv5_set_handling`: the stream command.  NOTE (faithful to the
source): in the SPI branch the unreachable-SPI case only logs and does not
return, so control falls through to `spi->hm = handling` with a NULL
pointer; that undefined behaviour is modelled as the result `none`. -/
def gicv5_set_handling (st : IRSState) (id : Nat) (handling : GICv5HandlingMode)
    (domain ty : Nat) (virt : Bool) : Option IRSState :=
  if virt then some st
  else if ty = GICV5_SPI then
    match gicv5_spi_state st id domain with
    | none => none
    | some (i, s) => some (setSPIAt st i { s with hm := handling })
  else if ty ≠ GICV5_LPI then some st
  else
    let cfg := st.phys_lpi_config domain
    let r := lpi_field_update cfg st.mem id
      (fun w => fieldDp32 w 2 1 (match handling with | .edge => 0 | .level => 1))
    some { st with phys_lpi_config := Function.update st.phys_lpi_config domain r.1,
                   mem := r.2.1 }

/-- `gic_cddis_write` (CPU interface `GIC_CDDIS` handler): decode ID and
type from the written value and disable via `gicv5_set_enabled(..., false)`.
`domain` is the current physical interrupt domain of the CPU. -/
def gic_cddis_write (st : IRSState) (domain value : Nat) : IRSState :=
  gicv5_set_enabled st (fieldEx value 0 24) false domain (fieldEx value 29 3) false

/-- `gic_cdpend_write` (CPU interface `GIC_CDPEND` handler): decode ID,
type and the PENDING bit (bit 32) and dispatch to `gicv5_set_pending`. -/
def gic_cdpend_write (st : IRSState) (domain value : Nat) : IRSState :=
  gicv5_set_pending st (fieldEx value 0 24) (fieldEx value 32 1 = 1) domain
    (fieldEx value 29 3) false

/-! ## SPI sampling and trigger-mode changes -/

/-- `spi_sample`: sample the SPI input line, updating pending state and
handling mode (SET_EDGE / SET_LEVEL / CLEAR events). -/
def spi_sample (s : GICv5SPIState) : GICv5SPIState :=
  if s.level then
    { s with pending := true,
             hm := if s.tm = .edge then .edge else .level }
  else if s.tm = .level then
    { s with pending := false }
  else s

/-- The per-record effect of a 32-bit write to `IRS_SPI_CFGR` on the
selected SPI (from `config_writel`): store the TM bit, and on a
trigger-mode change generate the CLEAR / SET_LEVEL events. -/
def irs_spi_cfgr_update (s : GICv5SPIState) (data : Nat) : GICv5SPIState :=
  let old_tm := s.tm
  let new_tm : GICv5TriggerMode := if fieldEx data 0 1 = 1 then .level else .edge
  let s := { s with tm := new_tm }
  if new_tm ≠ old_tm then
    if new_tm = .level then
      if s.level then { s with pending := true, hm := .level }
      else { s with pending := false }
    else if s.level then { s with pending := false }
    else s
  else s

/-- The `IRS_SPI_RESAMPLER` case of `config_writel`: look up the named SPI
and resample it.  NOTE (faithful to the source): the trace call after the
`if (spi)` block reads `spi->level`/`pending`/`active` unconditionally, so
an unreachable SPI ID dereferences a NULL pointer; modelled as `none`. -/
def irs_spi_resampler_write (st : IRSState) (domain data : Nat) : Option IRSState :=
  let id := fieldEx data 0 24
  match gicv5_spi_state st id domain with
  | some (i, s) => some (setSPIAt st i (spi_sample s))
  | none => none

/-! ## CPU interface: running priority, HPPI selection, priority drop -/

/-- Trailing-zero count with explicit fuel (one unit per inspected bit). -/
def ctzAux : Nat → Nat → Nat
  | 0, _ => 0
  | fuel + 1, x => if x % 2 = 1 then 0 else ctzAux fuel (x / 2) + 1

/-- `ctz64` from QEMU's host-utils: number of trailing zeros of a 64-bit
value, and 64 for the value 0. -/
def ctz64 (x : Nat) : Nat :=
  if x % 2 ^ 64 = 0 then 64 else ctzAux 64 (x % 2 ^ 64)

/-- `gic_running_prio`: the lowest set bit of the Active Priority Register,
or the idle priority when no bit below 32 is set. -/
def gic_running_prio (apr : Nat) : Nat :=
  let hap := ctz64 apr
  if hap < 32 then hap else PRIO_IDLE

/-- `gic_cdeoi_write` (`GIC_CDEOI`, Priority Drop): clear the lowest set
bit of the current domain's APR (`*apr &= *apr - 1`; at zero the `uint64_t`
wraparound still yields zero, as does truncated `Nat` subtraction). -/
def gic_cdeoi_write (icc_apr : Nat → Nat) (domain : Nat) : Nat → Nat :=
  Function.update icc_apr domain (icc_apr domain &&& (icc_apr domain - 1))

/-- `R_ICC_CR0_EN_MASK`: FIELD(ICC_CR0, EN, 0, 1). -/
def R_ICC_CR0_EN_MASK : Nat := 1

/-- `R_ICC_HPPIR_EL1_HPPIV_MASK`: FIELD(ICC_HPPIR_EL1, HPPIV, 32, 1), a
64-bit mask with bit 32 set. -/
def R_ICC_HPPIR_EL1_HPPIV_MASK : Nat := 1 <<< 32

/-- `gic_hppi`: the highest-priority pending interrupt of the given domain
that has sufficient priority to preempt, combining the cached best PPI with
the IRS HPPI (`irs_hppi` is the value `gicv5_get_hppi` returns for this
CPU's IAFFID).  NOTE (faithful to the source): `best.intid` is a
`uint32_t`, so the final `best.intid |= R_ICC_HPPIR_EL1_HPPIV_MASK` (a
64-bit mask with only bit 32 set) is truncated; the `% 2 ^ 32` models that
compound-assignment truncation. -/
def gic_hppi (icc_cr0 : Nat) (ppi_hppi irs_hppi : GICv5PendingIrq)
    (icc_apr icc_pcr : Nat) : GICv5PendingIrq :=
  if icc_cr0 &&& R_ICC_CR0_EN_MASK = 0 then ⟨0, PRIO_IDLE⟩
  else
    let best := if ppi_hppi.prio ≤ irs_hppi.prio then ppi_hppi else irs_hppi
    if best.prio = PRIO_IDLE ∨ best.prio > icc_pcr ∨
        best.prio ≥ gic_running_prio icc_apr then
      ⟨0, PRIO_IDLE⟩
    else
      ⟨(best.intid ||| R_ICC_HPPIR_EL1_HPPIV_MASK) % 2 ^ 32, best.prio⟩

/-! ## PPI-HPPI recomputation -/

/-- Value of the C expression `(uint64_t)~(1 << bit)` as it appears in
`gic_recalc_ppi_hppi`.  `1` has type `int` (32 bits): the shift result
wraps to a signed 32-bit value (with the x86 shift-count masking for
amounts of 32 or more), the complement is taken in 32 bits, and the
conversion to `uint64_t` sign-extends.  For `bit ≤ 30` this yields
`2^64 - 1 - 2^bit` (the intended mask), but for `bit = 31` it yields
`0x7fffffff`, which also clears bits 32..63. -/
def cClearMask (bit : Nat) : Nat :=
  let v32 := (1 <<< (bit % 32)) % 2 ^ 32
  let notv := 2 ^ 32 - 1 - v32
  if notv < 2 ^ 31 then notv else 2 ^ 64 - 2 ^ 32 + notv

/-- The priority byte lookup of `gic_recalc_ppi_hppi`:
`extract64(ppi_priority[ppi / 8], (ppi & 7) * 8, 5)`. -/
def ppi_prio_lookup (ppi_priority : Nat → Nat) (ppi : Nat) : Nat :=
  fieldEx (ppi_priority (ppi / 8)) (ppi % 8 * 8) 5

/-- The `while (en_pend_nact)` loop of `gic_recalc_ppi_hppi` for one 64-bit
PPI bank, with fuel (the C loop is unbounded; `none` means the loop failed
to terminate within the fuel, which can happen because of the
`en_pend_nact &= ~(1 << bit)` mask truncation). -/
def recalc_bank_go (ppi_priority : Nat → Nat) (bank : Nat) :
    Nat → Nat → GICv5PendingIrq → Option GICv5PendingIrq
  | _, 0, acc => some acc
  | 0, _, _ => none
  | fuel + 1, en_pend_nact, acc =>
    let bit := ctz64 en_pend_nact
    let rest := en_pend_nact &&& cClearMask bit
    let ppi := bank * 64 + bit
    let prio := ppi_prio_lookup ppi_priority ppi
    let acc' := if prio < acc.prio then ⟨intid_mk ppi GICV5_PPI, prio⟩ else acc
    recalc_bank_go ppi_priority bank fuel rest acc'

/-- `gic_recalc_ppi_hppi`, restricted to its only implemented domain (NS,
since without EL3 support every PPI belongs to NS): reset the candidate to
idle, then scan `enable & pend & ~active` of both 64-bit PPI banks keeping
the best (minimum, first-scanned-wins) priority.  The inputs are the two
`ppi_enable`/`ppi_pend`/`ppi_active` banks (index 0 and 1, values below
`2^64`) and the 16-entry `ppi_priority` array. -/
def gic_recalc_ppi_hppi (ppi_enable ppi_pend ppi_active ppi_priority : Nat → Nat) :
    Option GICv5PendingIrq :=
  let en_pend_nact := fun i : Nat =>
    ppi_enable i &&& ppi_pend i &&& ((2 ^ 64 - 1) ^^^ ppi_active i)
  match recalc_bank_go ppi_priority 0 128 (en_pend_nact 0) ⟨0, PRIO_IDLE⟩ with
  | none => none
  | some a0 => recalc_bank_go ppi_priority 1 128 (en_pend_nact 1) a0

/-- The PPI-HPPI scan as the specification describes it (modelled from the
spec sentence "For each set bit (PPI index within the bank), look up the
priority byte, and keep the minimum (best) priority per domain. Break ties
in the order the bits are scanned."): identical to the source loop except
that the processed bit is cleared with a full 64-bit mask
(`~(1ULL << bit)`), so every set bit of both banks is visited. -/
def recalc_bank_go_spec (ppi_priority : Nat → Nat) (bank : Nat) :
    Nat → Nat → GICv5PendingIrq → Option GICv5PendingIrq
  | _, 0, acc => some acc
  | 0, _, _ => none
  | fuel + 1, en_pend_nact, acc =>
    let bit := ctz64 en_pend_nact
    let rest := en_pend_nact &&& (2 ^ 64 - 1 - (1 <<< bit))
    let ppi := bank * 64 + bit
    let prio := ppi_prio_lookup ppi_priority ppi
    let acc' := if prio < acc.prio then ⟨intid_mk ppi GICV5_PPI, prio⟩ else acc
    recalc_bank_go_spec ppi_priority bank fuel rest acc'

/-- Specification version of `gic_recalc_ppi_hppi` (see
`recalc_bank_go_spec`). -/
def gic_recalc_ppi_hppi_spec (ppi_enable ppi_pend ppi_active ppi_priority : Nat → Nat) :
    Option GICv5PendingIrq :=
  let en_pend_nact := fun i : Nat =>
    ppi_enable i &&& ppi_pend i &&& ((2 ^ 64 - 1) ^^^ ppi_active i)
  match recalc_bank_go_spec ppi_priority 0 128 (en_pend_nact 0) ⟨0, PRIO_IDLE⟩ with
  | none => none
  | some a0 => recalc_bank_go_spec ppi_priority 1 128 (en_pend_nact 1) a0

/-! ## Config-frame reads: identification registers -/

/-- The read-only identification register values of one IRS
(`GICv5Common.irs_idr0` .. `irs_idr7`), fixed at realize. -/
structure GICv5IdRegs where
  irs_idr0 : Nat
  irs_idr1 : Nat
  irs_idr2 : Nat
  irs_idr3 : Nat
  irs_idr4 : Nat
  irs_idr5 : Nat
  irs_idr6 : Nat
  irs_idr7 : Nat
deriving DecidableEq

/-- `R_IRS_IDR0_MEC_MASK` (FIELD(IRS_IDR0, MEC, 10, 1)) and
`R_IRS_IDR0_VIRT_MASK` (FIELD(IRS_IDR0, VIRT, 6, 1)). -/
def R_IRS_IDR0_MEC_MASK : Nat := 1 <<< 10
def R_IRS_IDR0_VIRT_MASK : Nat := 1 <<< 6

/-- The value the `A_IRS_IDR0` case of `config_readl` computes into its
local `v`: the stored IDR0 with `INT_DOM` replaced by the domain of the
config frame being read, `MEC` forced to zero outside the Realm frame, and
`VIRT` forced to zero in the EL3 frame. -/
def irs_idr0_read_value (idr0 domain : Nat) : Nat :=
  let v := idr0
  let v := fieldDp32 v 0 2 domain
  let v := if domain ≠ GICV5_ID_REALM then v &&& (2 ^ 64 - 1 - R_IRS_IDR0_MEC_MASK)
           else v
  let v := if domain = GICV5_ID_EL3 then v &&& (2 ^ 64 - 1 - R_IRS_IDR0_VIRT_MASK)
           else v
  v

/-- The identification-register portion (offsets 0x0..0x1c) of the 32-bit
config-frame read dispatch `config_readl`.  `dataPrev` is the value held by
the `*data` out-parameter on entry.  NOTE (faithful to the source): the
`A_IRS_IDR0` case computes the masked value `v` (see `irs_idr0_read_value`)
but returns without ever storing it to `*data`, so a read of offset 0
leaves `*data` untouched. -/
def config_readl_idr (regs : GICv5IdRegs) (domain offset dataPrev : Nat) :
    Bool × Nat :=
  if offset = 0x0 then (true, dataPrev)
  else if offset = 0x4 then (true, regs.irs_idr1)
  else if offset = 0x8 then (true, regs.irs_idr2)
  else if offset = 0xc then
    (true, if domain = GICV5_ID_EL3 then 0 else regs.irs_idr3)
  else if offset = 0x10 then
    (true, if domain = GICV5_ID_EL3 then 0 else regs.irs_idr4)
  else if offset = 0x14 then (true, regs.irs_idr5)
  else if offset = 0x18 then (true, regs.irs_idr6)
  else if offset = 0x1c then (true, regs.irs_idr7)
  else (false, dataPrev)

/-! ## Concrete fixtures for evaluation theorems -/

/-- A reachable NS-domain SPI record (managed id 32): level-triggered,
enabled, not pending. -/
def spiRec : GICv5SPIState :=
  { iaffid := 0, priority := 8, level := false, pending := false,
    active := false, enabled := true, hm := .level, irm := .targeted,
    tm := .level, domain := GICV5_ID_NS }

/-- An IST configuration that is not valid (reset state). -/
def cfgInvalid : GICv5ISTConfig :=
  { base := 0, id_bits := 0, l2_idx_bits := 0, istsz := 0,
    twoLevel := false, valid := false, lpi_cache := [] }

/-- Guest memory with nothing mapped. -/
def memEmpty : GuestMem := fun _ => none

/-- An IRS managing SPI IDs 32..63 with the record for SPI 32 populated. -/
def st0 : IRSState :=
  { spi := [spiRec], spi_base := 32, spi_irs_range := 32,
    phys_lpi_config := fun _ => cfgInvalid, mem := memEmpty }

/-- C1: evaluation of the code at the failing input.  SPI 32 is reachable
in the NS domain and starts out not pending; `gicv5_set_pending` with
`pending = false` (type SPI, non-virtual) must per the claim leave the
record's pending field `false`, but the source stores the constant `true`
into `spi->pending`, ignoring the argument. -/
theorem gicv5_set_pending_spi_ignores_argument :
    ((st0.spi.get? 0).map GICv5SPIState.pending = some false) ∧
    ((gicv5_set_pending st0 32 false GICV5_ID_NS GICV5_SPI false).spi.get? 0).map
        GICv5SPIState.pending = some true := by
  exact ⟨rfl, rfl⟩

/-- C2: evaluation of the code at the failing input.  A `GIC_CDDIS` write
naming reachable SPI 32 (value encodes ID 32, type SPI) passes
`enabled = false` to `gicv5_set_enabled`, which per the claim must clear
the record's enabled field, but the source stores the constant `true` into
`spi->enabled`, so the SPI stays enabled. -/
theorem gic_cddis_write_leaves_spi_enabled :
    ((st0.spi.get? 0).map GICv5SPIState.enabled = some true) ∧
    ((gic_cddis_write st0 GICV5_ID_NS (32 ||| (GICV5_SPI <<< 29))).spi.get? 0).map
        GICv5SPIState.enabled = some true := by
  exact ⟨rfl, rfl⟩

/-- C3: evaluation of the code at the failing input.  SPI 99 is outside the
managed range [32, 64) of `st0`, so it is unreachable; the claim says both
`gicv5_set_handling` and an `IRS_SPI_RESAMPLER` write naming it are logged
no-ops that never touch an SPI record, but the source dereferences the NULL
record pointer in both paths (`gicv5_set_handling` does not return after
logging, and the resampler's trace call sits outside the NULL check);
the embedding models that undefined behaviour as `none`. -/
theorem unreachable_spi_dereferences_null :
    gicv5_set_handling st0 99 .level GICV5_ID_NS GICV5_SPI false = none ∧
    irs_spi_resampler_write st0 GICV5_ID_NS 99 = none := by
  exact ⟨rfl, rfl⟩

/-! ## C4 fixtures: PPI banks with set bits at indices 31 and 40 -/

/-- PPI enable/pend bank values: bits 31 and 40 of bank 0. -/
def ppiBits : Nat → Nat := fun i => if i = 0 then 2 ^ 31 + 2 ^ 40 else 0

/-- All-clear PPI bank values. -/
def ppiZero : Nat → Nat := fun _ => 0

/-- PPI priority registers: PPI 31 (register 3, byte 7) has priority 10,
PPI 40 (register 5, byte 0) has priority 5. -/
def ppiPrioRegs : Nat → Nat := fun r => if r = 3 then 10 <<< 56 else if r = 5 then 5 else 0

/-- C4: evaluation of the code at the failing input.  With PPIs 31 and 40
enabled, pending and not active (priorities 10 and 5), the claim requires
the recomputation to consider both set bits and record PPI 40 (priority 5)
as the NS-domain PPI-HPPI; the source's `en_pend_nact &= ~(1 << bit)` uses
a 32-bit `int`, so after processing bit 31 the zero-extended mask
`0x7fffffff` also clears bits 32..63 and PPI 40 is never examined, leaving
PPI 31 (priority 10) as the result, unlike the specification scan
`gic_recalc_ppi_hppi_spec`. -/
theorem gic_recalc_ppi_hppi_misses_high_bits :
    gic_recalc_ppi_hppi ppiBits ppiBits ppiZero ppiPrioRegs =
      some ⟨intid_mk 31 GICV5_PPI, 10⟩ ∧
    gic_recalc_ppi_hppi_spec ppiBits ppiBits ppiZero ppiPrioRegs =
      some ⟨intid_mk 40 GICV5_PPI, 5⟩ ∧
    gic_recalc_ppi_hppi ppiBits ppiBits ppiZero ppiPrioRegs ≠
      gic_recalc_ppi_hppi_spec ppiBits ppiBits ppiZero ppiPrioRegs := by
  refine ⟨by decide, by decide, by decide⟩

/-- C5: evaluation of the code at the failing input.  With the CPU
interface enabled, best PPI = (PPI 5, priority 3), an idle IRS HPPI, an
empty APR and priority mask 31, the candidate is sufficient and is
returned — but because `GICv5PendingIrq.intid` is a `uint32_t`, the
`best.intid |= R_ICC_HPPIR_EL1_HPPIV_MASK` (bit 32) is truncated away, so
the returned INTID never has the HPPIV bit set, contradicting the claim's
final clause. -/
theorem gic_hppi_hppiv_bit_is_lost :
    gic_hppi 1 ⟨intid_mk 5 GICV5_PPI, 3⟩ ⟨0, PRIO_IDLE⟩ 0 31 =
      ⟨intid_mk 5 GICV5_PPI, 3⟩ ∧
    (gic_hppi 1 ⟨intid_mk 5 GICV5_PPI, 3⟩ ⟨0, PRIO_IDLE⟩ 0 31).intid.testBit 32 =
      false ∧
    (gic_hppi 1 ⟨intid_mk 5 GICV5_PPI, 3⟩ ⟨0, PRIO_IDLE⟩ 0 31).intid ≠
      intid_mk 5 GICV5_PPI ||| R_ICC_HPPIR_EL1_HPPIV_MASK := by
  refine ⟨by decide, by decide, by decide⟩

/-- Identification registers with IRSID 5 (`irs_idr0 = 0x50000`) and
arbitrary distinct values elsewhere. -/
def idRegs0 : GICv5IdRegs :=
  { irs_idr0 := 0x50000, irs_idr1 := 1, irs_idr2 := 2, irs_idr3 := 3,
    irs_idr4 := 4, irs_idr5 := 5, irs_idr6 := 6, irs_idr7 := 7 }

/-- C6: the `A_IRS_IDR0` case of `config_readl` computes the domain-masked
IDR0 value but never stores it to `*data`: for every register file, domain
and incoming `*data` value, a 4-byte read at offset 0 returns the incoming
value unchanged; at the concrete failing input (NS frame, IRSID 5,
`*data = 0xdeadbeef` on entry) the bus returns `0xdeadbeef` instead of the
value `0x50001` the claim requires (IDR0 with INT_DOM = NS). -/
theorem config_readl_idr0_never_stored :
    (∀ regs : GICv5IdRegs, ∀ domain dataPrev : Nat,
      config_readl_idr regs domain 0 dataPrev = (true, dataPrev)) ∧
    config_readl_idr idRegs0 GICV5_ID_NS 0 0xdeadbeef = (true, 0xdeadbeef) ∧
    irs_idr0_read_value idRegs0.irs_idr0 GICV5_ID_NS = 0x50001 ∧
    (0xdeadbeef : Nat) ≠ 0x50001 := by
  refine ⟨fun regs domain dataPrev => rfl, by decide, by decide, by decide⟩

/-- C9: a level-triggered SPI whose wire is high is pending with Level
handling mode again after a resample (`IRS_SPI_RESAMPLER` calls
`spi_sample`), and after toggling the trigger mode to Edge and back to
Level through `IRS_SPI_CFGR` (TM bit 0 written 0 then 1). -/
theorem spi_level_one_roundtrip (s : GICv5SPIState)
    (htm : s.tm = .level) (hl : s.level = true) :
    (spi_sample s).pending = true ∧ (spi_sample s).hm = .level ∧
    (irs_spi_cfgr_update (irs_spi_cfgr_update s 0) 1).pending = true ∧
    (irs_spi_cfgr_update (irs_spi_cfgr_update s 0) 1).hm = .level := by
  simp [spi_sample, irs_spi_cfgr_update, fieldEx, htm, hl]

/-- C9 witness: the round-trip law evaluated on the concrete SPI record
`spiRec` with its wire driven high. -/
theorem spi_level_one_roundtrip_witness :
    (spi_sample { spiRec with level := true }).pending = true ∧
    (spi_sample { spiRec with level := true }).hm = .level ∧
    (irs_spi_cfgr_update (irs_spi_cfgr_update { spiRec with level := true } 0) 1).pending = true ∧
    (irs_spi_cfgr_update (irs_spi_cfgr_update { spiRec with level := true } 0) 1).hm = .level :=
  spi_level_one_roundtrip { spiRec with level := true } rfl rfl

/-! ## C10: the IST walker rejects out-of-range LPI IDs without memory access -/

/-- A successful association-list lookup yields a member of the list. -/
theorem mem_of_lookup_eq_some {c : List (Nat × Nat)} {id w : Nat}
    (h : c.lookup id = some w) : (id, w) ∈ c := by
  induction c with
  | nil => simp [List.lookup] at h
  | cons p rest ih =>
    rw [List.lookup] at h
    by_cases hk : id = p.1
    · rw [beq_iff_eq.mpr hk] at h
      cases h
      cases p
      simp_all
    · rw [beq_eq_false_iff_ne.mpr hk] at h
      exact List.mem_cons_of_mem _ (ih h)

/-- C10: for every valid IST configuration whose LPI cache holds only
in-range IDs (the system invariant: entries are only ever inserted after a
successful walk) and every LPI ID at or above `2 ^ id_bits`, `get_l2_iste`
returns `none` and performs no guest-memory read (and, having no write
path, no write either). -/
theorem get_l2_iste_rejects_out_of_range (cfg : GICv5ISTConfig)
    (mem : GuestMem) (id : Nat) (hv : cfg.valid = true)
    (hwf : ∀ p ∈ cfg.lpi_cache, p.1 < 2 ^ cfg.id_bits)
    (hid : 2 ^ cfg.id_bits ≤ id) :
    get_l2_iste cfg mem id = (none, []) := by
  have hlk : cfg.lpi_cache.lookup id = none := by
    cases hl : cfg.lpi_cache.lookup id with
    | none => rfl
    | some w =>
      have := hwf _ (mem_of_lookup_eq_some hl)
      omega
  have haddr : get_l2_iste_addr cfg mem id = (none, []) := by
    rw [get_l2_iste_addr, hv]
    simp only [Bool.not_true, Bool.false_eq_true, if_false]
    rw [if_pos]
    rw [Nat.shiftLeft_eq, one_mul]
    exact hid
  rw [get_l2_iste, hv]
  simp only [Bool.not_true, Bool.false_eq_true, if_false]
  rw [hlk, haddr]

/-- A valid 1-level IST configuration with 14 ID bits and an empty cache. -/
def cfg14 : GICv5ISTConfig :=
  { base := 0x40000000, id_bits := 14, l2_idx_bits := 10, istsz := 4,
    twoLevel := false, valid := true, lpi_cache := [] }

/-- C10 witness: the walker applied to LPI ID `2^14` under `cfg14`. -/
theorem get_l2_iste_rejects_out_of_range_witness :
    get_l2_iste cfg14 memEmpty 16384 = (none, []) :=
  get_l2_iste_rejects_out_of_range cfg14 memEmpty 16384 rfl
    (by intro p hp; cases hp) (by decide)

/-! ## C7: LPI cache discipline -/

/-- Removing a key from the cache makes its lookup fail. -/
theorem lookup_cacheRemove (c : List (Nat × Nat)) (id : Nat) :
    (cacheRemove c id).lookup id = none := by
  induction c with
  | nil => rfl
  | cons p rest ih =>
    by_cases hk : p.1 = id
    · simpa [cacheRemove, List.filter_cons, hk] using ih
    · simp only [cacheRemove, List.filter_cons] at ih ⊢
      rw [if_pos (by simpa using hk)]
      rw [List.lookup, beq_eq_false_iff_ne.mpr (fun he => hk he.symm)]
      exact ih

/-- An in-place cache update preserves which keys are present. -/
theorem lookup_cacheSet_isSome (c : List (Nat × Nat)) (id w k : Nat) :
    ((cacheSet c id w).lookup k).isSome = (c.lookup k).isSome := by
  induction c with
  | nil => rfl
  | cons p rest ih =>
    rw [cacheSet, List.map_cons]
    by_cases hk : p.1 = id
    · rw [if_pos hk, List.lookup, List.lookup]
      cases hbeq : k == p.1 with
      | true => simp
      | false => simpa [cacheSet] using ih
    · rw [if_neg hk, List.lookup, List.lookup]
      cases hbeq : k == p.1 with
      | true => simp
      | false => simpa [cacheSet] using ih

/-- An in-place cache update with a pending word keeps every cached word
pending. -/
theorem pending_of_mem_cacheSet {c : List (Nat × Nat)} {id w : Nat}
    (hw : fieldEx w 0 1 = 1) (hc : ∀ p ∈ c, fieldEx p.2 0 1 = 1) :
    ∀ p ∈ cacheSet c id w, fieldEx p.2 0 1 = 1 := by
  intro p hp
  rw [cacheSet] at hp
  obtain ⟨q, hq, hfq⟩ := List.mem_map.mp hp
  by_cases hk : q.1 = id
  · rw [if_pos hk] at hfq
    rw [← hfq]
    exact hw
  · rw [if_neg hk] at hfq
    rw [← hfq]
    exact hc q hq

/-- For a valid 1-level configuration the L2 entry address of an in-range
ID is `base + id * istsz`, computed without reading guest memory. -/
theorem get_l2_iste_addr_one_level (cfg : GICv5ISTConfig) (mem : GuestMem)
    (id : Nat) (hv : cfg.valid = true) (h1 : cfg.twoLevel = false)
    (hid : id < 2 ^ cfg.id_bits) :
    get_l2_iste_addr cfg mem id = (some (cfg.base + id * cfg.istsz), []) := by
  rw [get_l2_iste_addr, hv]
  simp only [Bool.not_true, Bool.false_eq_true, if_false]
  rw [if_neg (by rw [Nat.shiftLeft_eq, one_mul]; omega), h1]
  simp

/-- Every entry of the cleaned list whose (memory-independent, 1-level)
address resolves contributes its writeback to the write trace. -/
theorem cleanEntries_writes_back (cfg : GICv5ISTConfig) (id w : Nat)
    (hv : cfg.valid = true) (h1 : cfg.twoLevel = false)
    (hid : id < 2 ^ cfg.id_bits) :
    ∀ (entries : List (Nat × Nat)) (mem : GuestMem), (id, w) ∈ entries →
      (cfg.base + id * cfg.istsz, w) ∈ (cleanEntries cfg mem entries).2 := by
  intro entries
  induction entries with
  | nil => intro mem hmem; cases hmem
  | cons p rest ih =>
    intro mem hmem
    rcases List.mem_cons.mp hmem with hhd | htl
    · subst hhd
      simp only [cleanEntries, get_l2_iste_addr_one_level cfg mem id hv h1 hid]
      exact List.mem_cons_self _ _
    · rw [cleanEntries]
      cases haddr : (get_l2_iste_addr cfg mem p.1).1 with
      | some addr =>
        simp only
        exact List.mem_cons_of_mem _ (ih _ htl)
      | none =>
        simp only
        exact ih _ htl

/-- C7: the LPI cache discipline.  (i) `put_l2_iste` on a cached handle
whose committed word has PENDING clear removes the entry and writes the
word back to the resolved guest address; (ii) on an uncached handle whose
committed word has PENDING set it inserts the entry and issues no guest
write; (iii) for a handle consistent with the cache, the committed word's
PENDING bit is, after the put, equivalent to the entry being present, and
all cached words stay pending; (iv) `irs_clean_lpi_cache` empties the
cache and (for the memory-independent 1-level walk) writes every cached
entry back; (v) power-on reset returns the config to an empty cache and
invalid state — by construction `gicv5_reset_hold_cfg` does not touch
guest memory, so no writeback occurs. -/
theorem lpi_cache_discipline :
    (∀ (cfg : GICv5ISTConfig) (mem : GuestMem) (id w addr : Nat),
      (get_l2_iste_addr cfg mem id).1 = some addr →
      fieldEx w 0 1 = 0 →
      put_l2_iste cfg mem ⟨id, true, 0⟩ w =
        ({ cfg with lpi_cache := cacheRemove cfg.lpi_cache id },
          memWrite mem addr w, [(addr, w)])) ∧
    (∀ (cfg : GICv5ISTConfig) (mem : GuestMem) (id addr w : Nat),
      fieldEx w 0 1 = 1 →
      put_l2_iste cfg mem ⟨id, false, addr⟩ w =
        ({ cfg with lpi_cache := (id, w) :: cfg.lpi_cache }, mem, [])) ∧
    (∀ (cfg : GICv5ISTConfig) (mem : GuestMem) (h : L2_ISTE_Handle) (w : Nat),
      (h.hashed = true ↔ (cfg.lpi_cache.lookup h.id).isSome = true) →
      (∀ p ∈ cfg.lpi_cache, fieldEx p.2 0 1 = 1) →
      ((((put_l2_iste cfg mem h w).1.lpi_cache.lookup h.id).isSome = true) ↔
          fieldEx w 0 1 = 1) ∧
      (∀ p ∈ (put_l2_iste cfg mem h w).1.lpi_cache, fieldEx p.2 0 1 = 1)) ∧
    (∀ (cfg : GICv5ISTConfig) (mem : GuestMem),
      (irs_clean_lpi_cache cfg mem).1.lpi_cache = []) ∧
    (∀ (cfg : GICv5ISTConfig) (mem : GuestMem) (id w : Nat),
      cfg.valid = true → cfg.twoLevel = false → id < 2 ^ cfg.id_bits →
      (id, w) ∈ cfg.lpi_cache →
      (cfg.base + id * cfg.istsz, w) ∈ (irs_clean_lpi_cache cfg mem).2.2) ∧
    (∀ cfg : GICv5ISTConfig,
      (gicv5_reset_hold_cfg cfg).lpi_cache = [] ∧
      (gicv5_reset_hold_cfg cfg).valid = false) := by
  refine ⟨?_, ?_, ?_, ?_, ?_, ?_⟩
  · intro cfg mem id w addr haddr hw
    rw [put_l2_iste]
    simp only [hw, if_true, if_pos rfl]
    rw [haddr]
  · intro cfg mem id addr w hw
    rw [put_l2_iste]
    simp [hw]
  · intro cfg mem h w hcons hinv
    cases hh : h.hashed with
    | true =>
      by_cases hw : fieldEx w 0 1 = 0
      · have hput : (put_l2_iste cfg mem h w).1.lpi_cache =
            cacheRemove cfg.lpi_cache h.id := by
          cases haddr : (get_l2_iste_addr cfg mem h.id).1 with
          | some addr => simp [put_l2_iste, hh, hw, haddr]
          | none => simp [put_l2_iste, hh, hw, haddr]
        refine ⟨?_, ?_⟩
        · rw [hput, lookup_cacheRemove]
          simp [hw]
        · rw [hput]
          intro p hp
          exact hinv p (List.mem_of_mem_filter hp)
      · have hw1 : fieldEx w 0 1 = 1 := by
          have := Nat.mod_lt (w >>> 0) (show 0 < 2 ^ 1 by decide)
          unfold fieldEx at hw ⊢
          omega
        have hput : (put_l2_iste cfg mem h w).1.lpi_cache =
            cacheSet cfg.lpi_cache h.id w := by
          simp [put_l2_iste, hh, hw]
        refine ⟨?_, ?_⟩
        · rw [hput, lookup_cacheSet_isSome]
          simp [← hcons, hh, hw1]
        · rw [hput]
          exact pending_of_mem_cacheSet hw1 hinv
    | false =>
      by_cases hw : fieldEx w 0 1 = 0
      · have hput : (put_l2_iste cfg mem h w).1.lpi_cache = cfg.lpi_cache := by
          simp [put_l2_iste, hh, hw]
        have hlk : (cfg.lpi_cache.lookup h.id).isSome = false := by
          cases hl : (cfg.lpi_cache.lookup h.id).isSome with
          | false => rfl
          | true => exact absurd (hcons.mpr hl) (by simp [hh])
        refine ⟨?_, ?_⟩
        · rw [hput, hlk]
          simp [hw]
        · rw [hput]
          exact hinv
      · have hw1 : fieldEx w 0 1 = 1 := by
          have := Nat.mod_lt (w >>> 0) (show 0 < 2 ^ 1 by decide)
          unfold fieldEx at hw ⊢
          omega
        have hput : (put_l2_iste cfg mem h w).1.lpi_cache =
            (h.id, w) :: cfg.lpi_cache := by
          simp [put_l2_iste, hh, hw]
        refine ⟨?_, ?_⟩
        · rw [hput]
          simp [List.lookup, hw1]
        · rw [hput]
          intro p hp
          rcases List.mem_cons.mp hp with hhd | htl
          · rw [hhd]
            exact hw1
          · exact hinv p htl
  · intro cfg mem
    rfl
  · intro cfg mem id w hv h1 hid hmem
    exact cleanEntries_writes_back cfg id w hv h1 hid cfg.lpi_cache mem hmem
  · intro cfg
    exact ⟨rfl, rfl⟩

/-- C7 witness: the insertion clause of `lpi_cache_discipline` evaluated at
a concrete configuration: committing word 9 (PENDING set) for LPI 0x17
through an uncached handle inserts the cache entry and issues no guest
write. -/
theorem lpi_cache_discipline_witness :
    put_l2_iste cfg14 memEmpty ⟨0x17, false, 0x4000005c⟩ 9 =
      ({ cfg14 with lpi_cache := (0x17, 9) :: cfg14.lpi_cache }, memEmpty, []) :=
  lpi_cache_discipline.2.1 cfg14 memEmpty 0x17 0x4000005c 9 (by decide)

/-! ## C8: GIC_CDEOI priority drop -/

/-- `ctzAux` does not depend on the fuel once the fuel bounds the value. -/
theorem ctzAux_fuel : ∀ (f g x : Nat), x ≠ 0 → x < 2 ^ f → x < 2 ^ g →
    ctzAux f x = ctzAux g x
  | 0, _, x, hx, hf, _ => absurd (Nat.lt_one_iff.mp hf) hx
  | _ + 1, 0, x, hx, _, hg => absurd (Nat.lt_one_iff.mp hg) hx
  | f + 1, g + 1, x, hx, hf, hg => by
    rw [ctzAux, ctzAux]
    by_cases hodd : x % 2 = 1
    · rw [if_pos hodd, if_pos hodd]
    · rw [if_neg hodd, if_neg hodd]
      have hx2 : x / 2 ≠ 0 := by omega
      have hf2 : x / 2 < 2 ^ f := by
        rw [pow_succ] at hf
        omega
      have hg2 : x / 2 < 2 ^ g := by
        rw [pow_succ] at hg
        omega
      rw [ctzAux_fuel f g (x / 2) hx2 hf2 hg2]

/-- For an odd number, clearing the lowest set bit is subtracting one. -/
theorem land_pred_odd (x : Nat) (hodd : x % 2 = 1) : x &&& (x - 1) = x - 1 := by
  apply Nat.eq_of_testBit_eq
  intro i
  cases i with
  | zero =>
    simp only [Nat.testBit_and, Nat.testBit_zero]
    have h1 : (x - 1) % 2 = 0 := by omega
    simp [h1]
  | succ j =>
    simp only [Nat.testBit_add_one, Nat.and_div_two]
    have h2 : (x - 1) / 2 = x / 2 := by omega
    rw [h2]
    simp [Nat.testBit_and]

/-- For an even number, `x &&& (x - 1)` factors through the half. -/
theorem land_pred_even (x : Nat) (heven : x % 2 = 0) :
    x &&& (x - 1) = 2 * (x / 2 &&& (x / 2 - 1)) := by
  apply Nat.eq_of_testBit_eq
  intro i
  cases i with
  | zero =>
    simp only [Nat.testBit_and, Nat.testBit_zero]
    have h2 : 2 * (x / 2 &&& (x / 2 - 1)) % 2 = 0 := by omega
    simp [heven, h2]
  | succ j =>
    simp only [Nat.testBit_add_one, Nat.and_div_two]
    have h2 : (x - 1) / 2 = x / 2 - 1 := by omega
    have h3 : 2 * (x / 2 &&& (x / 2 - 1)) / 2 = x / 2 &&& (x / 2 - 1) := by omega
    rw [h2, h3]

/-- `x &&& (x - 1)` clears exactly the lowest set bit: the arithmetic
characterisation, the bit at the trailing-zero count, and preservation of
every other bit. -/
theorem land_pred_core : ∀ (f x : Nat), x ≠ 0 → x < 2 ^ f →
    x &&& (x - 1) = x - 2 ^ ctzAux f x ∧
    x.testBit (ctzAux f x) = true ∧
    (x &&& (x - 1)).testBit (ctzAux f x) = false ∧
    ∀ i, i ≠ ctzAux f x → (x &&& (x - 1)).testBit i = x.testBit i
  | 0, x, hx, hf => absurd (Nat.lt_one_iff.mp hf) hx
  | f + 1, x, hx, hf => by
    by_cases hodd : x % 2 = 1
    · have hc : ctzAux (f + 1) x = 0 := by rw [ctzAux, if_pos hodd]
      have ha := land_pred_odd x hodd
      rw [hc]
      refine ⟨by rw [ha, pow_zero], ?_, ?_, ?_⟩
      · simp [Nat.testBit_zero, hodd]
      · rw [ha]
        have h1 : (x - 1) % 2 = 0 := by omega
        simp [Nat.testBit_zero, h1]
      · intro i hi
        cases i with
        | zero => exact absurd rfl hi
        | succ j =>
          rw [ha, Nat.testBit_add_one, Nat.testBit_add_one]
          have h2 : (x - 1) / 2 = x / 2 := by omega
          rw [h2]
    · have heven : x % 2 = 0 := by omega
      have hm : x / 2 ≠ 0 := by omega
      have hmf : x / 2 < 2 ^ f := by
        rw [pow_succ] at hf
        omega
      obtain ⟨iha, ihb, ihc, ihd⟩ := land_pred_core f (x / 2) hm hmf
      have hc : ctzAux (f + 1) x = ctzAux f (x / 2) + 1 := by
        rw [ctzAux, if_neg hodd]
      have heq := land_pred_even x heven
      have h3 : 2 * (x / 2 &&& (x / 2 - 1)) / 2 = x / 2 &&& (x / 2 - 1) := by omega
      refine ⟨?_, ?_, ?_, ?_⟩
      · rw [hc, heq, iha, pow_succ]
        omega
      · rw [hc, Nat.testBit_add_one]
        exact ihb
      · rw [hc, heq, Nat.testBit_add_one, h3]
        exact ihc
      · intro i hi
        cases i with
        | zero =>
          simp only [Nat.testBit_and, Nat.testBit_zero]
          simp [heven]
        | succ j =>
          have hj : j ≠ ctzAux f (x / 2) := by
            intro h
            exact hi (by rw [hc, h])
          rw [heq, Nat.testBit_add_one, Nat.testBit_add_one, h3]
          exact ihd j hj

/-- On 64-bit values `ctz64` is the fuelled trailing-zero count. -/
theorem ctz64_eq_ctzAux (x : Nat) (hx : x ≠ 0) (hlt : x < 2 ^ 64) :
    ctz64 x = ctzAux 64 x := by
  rw [ctz64, Nat.mod_eq_of_lt hlt, if_neg hx]

/-- C8 counterexample: at `icc_apr[NS] = 0xC00000000` (bits 34 and 35
set), the `GIC_CDEOI` write leaves `0x800000000`: bits remain set and the
new lowest set bit has index 35, yet `gic_running_prio` reports
`PRIO_IDLE`, so "afterwards the running priority equals the index of the
new lowest set bit, or PRIO_IDLE when no bit remains set" fails at this
input. -/
theorem gic_cdeoi_running_prio_counterexample :
    gic_cdeoi_write (fun _ => 0xC00000000) GICV5_ID_NS GICV5_ID_NS =
      0x800000000 ∧
    (0x800000000 : Nat) ≠ 0 ∧
    ctz64 0x800000000 = 35 ∧
    gic_running_prio 0x800000000 = PRIO_IDLE ∧
    PRIO_IDLE ≠ 35 := by
  refine ⟨?_, by decide, by decide, by decide, by decide⟩
  rw [gic_cdeoi_write, Function.update_same]
  decide

/-- C8 (amended): a `GIC_CDEOI` write in current physical domain `d`
replaces `icc_apr[d]` with `icc_apr[d] & (icc_apr[d] - 1)`: it leaves
every other domain's APR unchanged, is a no-op when the register is zero,
and otherwise clears exactly the lowest set bit; afterwards the running
priority is the index of the new lowest set bit when that index is below
32, and `PRIO_IDLE` otherwise (in particular when no bit remains set, and
also when the remaining lowest set bit has index 32 or more, since
`gic_running_prio` only inspects the 32 architectural APR bits). -/
theorem gic_cdeoi_write_spec (icc_apr : Nat → Nat) (domain : Nat)
    (hlt : icc_apr domain < 2 ^ 64) :
    gic_cdeoi_write icc_apr domain domain =
      icc_apr domain &&& (icc_apr domain - 1) ∧
    (∀ d, d ≠ domain → gic_cdeoi_write icc_apr domain d = icc_apr d) ∧
    (icc_apr domain = 0 → gic_cdeoi_write icc_apr domain domain = 0) ∧
    (icc_apr domain ≠ 0 →
      gic_cdeoi_write icc_apr domain domain =
        icc_apr domain - 2 ^ ctz64 (icc_apr domain) ∧
      (icc_apr domain).testBit (ctz64 (icc_apr domain)) = true ∧
      (gic_cdeoi_write icc_apr domain domain).testBit
        (ctz64 (icc_apr domain)) = false ∧
      ∀ i, i ≠ ctz64 (icc_apr domain) →
        (gic_cdeoi_write icc_apr domain domain).testBit i =
          (icc_apr domain).testBit i) ∧
    (gic_cdeoi_write icc_apr domain domain = 0 →
      gic_running_prio (gic_cdeoi_write icc_apr domain domain) = PRIO_IDLE) ∧
    (gic_cdeoi_write icc_apr domain domain ≠ 0 →
      ctz64 (gic_cdeoi_write icc_apr domain domain) < 32 →
      gic_running_prio (gic_cdeoi_write icc_apr domain domain) =
        ctz64 (gic_cdeoi_write icc_apr domain domain)) := by
  have hupd : gic_cdeoi_write icc_apr domain domain =
      icc_apr domain &&& (icc_apr domain - 1) := by
    rw [gic_cdeoi_write, Function.update_same]
  refine ⟨hupd, ?_, ?_, ?_, ?_, ?_⟩
  · intro d hd
    rw [gic_cdeoi_write, Function.update_noteq hd]
  · intro h0
    rw [hupd, h0]
    decide
  · intro hne
    obtain ⟨ha, hb, hc, hd⟩ := land_pred_core 64 (icc_apr domain) hne hlt
    rw [ctz64_eq_ctzAux _ hne hlt, hupd]
    exact ⟨ha, hb, hc, hd⟩
  · intro h0
    rw [h0]
    decide
  · intro hne h32
    rw [gic_running_prio]
    simp only [h32, if_true, if_pos h32]

/-- C8 witness: the amended priority-drop law evaluated at the concrete
APR bank holding `0b10100` in every domain, dropped in domain NS: the
lowest set bit (index 2) is cleared exactly. -/
theorem gic_cdeoi_write_spec_witness :
    gic_cdeoi_write (fun _ => 20) GICV5_ID_NS GICV5_ID_NS =
      20 - 2 ^ ctz64 20 ∧
    (20 : Nat).testBit (ctz64 20) = true ∧
    (gic_cdeoi_write (fun _ => 20) GICV5_ID_NS GICV5_ID_NS).testBit
      (ctz64 20) = false ∧
    ∀ i, i ≠ ctz64 20 →
      (gic_cdeoi_write (fun _ => 20) GICV5_ID_NS GICV5_ID_NS).testBit i =
        (20 : Nat).testBit i :=
  (gic_cdeoi_write_spec (fun _ => 20) GICV5_ID_NS (by decide)).2.2.2.1
    (by decide)
